import Mathlib

/-!
Verification of the RaiderIoAnalytics run-collection and aggregation pipeline.

The Python sources (`src/api.py`, `src/character_runs.py`, `src/analytics.py`,
`src/main.py`) are shallowly embedded below.  JSON payloads returned by the
remote service are modelled by the inductive type `Json`; Python truthiness,
`dict.get`, `x or y`, f-string rendering, `==`, hashability and the exceptions
raised by attribute access are modelled explicitly.  HTTP transport is outside
the embedded core: functions that consume fetched payloads take those payloads
(or a fetching function) as arguments.
-/

/-- A JSON value as produced by `response.json()` in the Python sources.
Numbers are modelled as integers (the service's identifiers are integral). -/
inductive Json where
  | null
  | bool (b : Bool)
  | num (n : Int)
  | str (s : String)
  | arr (elems : List Json)
  | obj (fields : List (String × Json))

/-- Python truthiness (`bool(x)`) for the modelled JSON values. -/
def Json.truthy : Json → Bool
  | .null => false
  | .bool b => b
  | .num n => n != 0
  | .str s => s != ""
  | .arr xs => !xs.isEmpty
  | .obj kvs => !kvs.isEmpty

/-- `d.get(k)` on a dict given as a field list: first binding of `k`, else `None`. -/
def getField (kvs : List (String × Json)) (k : String) : Json :=
  match kvs.find? (fun kv => kv.1 == k) with
  | some kv => kv.2
  | none => .null

/-- `d.get(k, dflt)` on a dict given as a field list. -/
def getFieldD (kvs : List (String × Json)) (k : String) (dflt : Json) : Json :=
  match kvs.find? (fun kv => kv.1 == k) with
  | some kv => kv.2
  | none => dflt

/-- Python `a or b`: `a` when truthy, otherwise `b`. -/
def pyOr (a b : Json) : Json :=
  if a.truthy then a else b

/-- Python numeric view used by `==`: `True`/`False` compare equal to `1`/`0`. -/
def pyNumVal : Json → Option Int
  | .num n => some n
  | .bool b => some (if b then 1 else 0)
  | _ => none

/-- Python `==` on the scalar JSON values that can be set members in the
sources (containers are rejected as unhashable before any comparison, so the
container cases never influence the embedded functions). -/
def pyEq (a b : Json) : Bool :=
  match pyNumVal a, pyNumVal b with
  | some x, some y => x == y
  | _, _ =>
    match a, b with
    | .null, .null => true
    | .str s, .str t => s == t
    | _, _ => false

/-- Python hashability: scalars are hashable, `list`/`dict` values are not. -/
def pyHashable : Json → Bool
  | .arr _ => false
  | .obj _ => false
  | _ => true

/-- Exceptions that the embedded code can raise (uncaught in the sources). -/
inductive PyErr where
  | attributeError
  | typeError
  | keyError
deriving DecidableEq, Repr

mutual

/-- Python `repr` of a JSON value (also `str` for every non-string value). -/
def pyRepr : Json → String
  | .null => "None"
  | .bool true => "True"
  | .bool false => "False"
  | .num n => toString n
  | .str s => "\x27" ++ s ++ "\x27"
  | .arr xs => "[" ++ pyReprElems xs ++ "]"
  | .obj kvs => "\x7b" ++ pyReprFields kvs ++ "\x7d"

/-- `repr` of list elements, comma separated. -/
def pyReprElems : List Json → String
  | [] => ""
  | [x] => pyRepr x
  | x :: xs => pyRepr x ++ ", " ++ pyReprElems xs

/-- `repr` of dict fields, comma separated. -/
def pyReprFields : List (String × Json) → String
  | [] => ""
  | [(k, v)] => "\x27" ++ k ++ "\x27: " ++ pyRepr v
  | (k, v) :: xs => "\x27" ++ k ++ "\x27: " ++ pyRepr v ++ ", " ++ pyReprFields xs

end

/-- Python `str(x)` as used by f-string interpolation: a string renders as
itself, any other value as its `repr`. -/
def pyStr : Json → String
  | .str s => s
  | j => pyRepr j

/-- ASCII lowering of one character (the identifiers the sources compare are
ASCII; Python's full Unicode lowering coincides with this on them). -/
def lowerChar (c : Char) : Char :=
  if c.toNat ≥ 65 ∧ c.toNat ≤ 90 then Char.ofNat (c.toNat + 32) else c

/-- Python `s.lower()`. -/
def pyLower (s : String) : String :=
  String.mk (s.toList.map lowerChar)

/-- `for x in v`: the elements Python iteration yields for each value shape
(`list` elements, `str` characters, `dict` keys; other values raise). -/
def pyIterElems : Json → Except PyErr (List Json)
  | .arr xs => .ok xs
  | .str s => .ok (s.toList.map (fun ch => .str ch.toString))
  | .obj kvs => .ok (kvs.map (fun kv => .str kv.1))
  | _ => .error .typeError

/-- `src/api.py` lines 107-119 (identical copy in `src/main.py` lines 152-162):
`extract_run_id`.  `None` results are modelled as `.null`, matching Python. -/
def extract_run_id (run : Json) : Json :=
  match run with
  | .obj kvs =>
    let rid := pyOr (getField kvs "keystone_run_id") (getField kvs "id")
    if rid.truthy then rid
    else
      match getField kvs "summary" with
      | .obj skvs => pyOr (getField skvs "keystone_run_id") (getField skvs "id")
      | _ => .null
  | _ => .null

/-- First truthy value in a list, if any. -/
def firstTruthy (l : List Json) : Option Json :=
  l.find? Json.truthy

/-- Spec-side reformulation (for comparison with `extract_run_id`): run
identifier extraction as the spec words it - try, in order, `keystone_run_id`,
then `id`, then (only if a nested `summary` object exists) its
`keystone_run_id` or `id`; the first non-empty match wins; otherwise no
identifier. -/
def extract_run_id_spec (run : Json) : Option Json :=
  match run with
  | .obj kvs =>
    match firstTruthy [getField kvs "keystone_run_id", getField kvs "id"] with
    | some v => some v
    | none =>
      match getField kvs "summary" with
      | .obj skvs => firstTruthy [getField skvs "keystone_run_id", getField skvs "id"]
      | _ => none
  | _ => none

/-- The truthy run identifier of a record, when there is one (the sources
guard every use of `extract_run_id` with a truthiness test). -/
def truthyId (run : Json) : Option Json :=
  let rid := extract_run_id run
  if rid.truthy then some rid else none

/-- A record is safe for the discovery loop's `seen` set: its extracted id is
falsy (never added) or hashable.  An unhashable truthy id raises `TypeError`
at `run_id not in seen_run_ids`. -/
def idOk (run : Json) : Bool :=
  match truthyId run with
  | some v => pyHashable v
  | none => true

/-- `src/character_runs.py` lines 22-32 (identical loop in `src/main.py`
lines 281-291): the body of the per-dungeon discovery loop.  `acc` is `runs`,
`seen` is `seen_run_ids` (a Python set, modelled as the list of added ids with
`==`-based membership; adding requires hashability). -/
def collectGo : List Json → List Json → List Json → Except PyErr (List Json)
  | [], acc, _ => .ok acc
  | run :: rest, acc, seen =>
    let rid := extract_run_id run
    if rid.truthy then
      if pyHashable rid then
        if seen.any (fun v => pyEq v rid) then collectGo rest acc seen
        else collectGo rest (acc ++ [run]) (seen ++ [rid])
      else .error .typeError
    else collectGo rest acc seen

/-- `src/character_runs.py` `collect_runs_for_character`, run-list part: the
argument is the sequence of per-dungeon `fetch_runs_for_dungeon` results, in
dungeon order; the nested loops scan their concatenation with one `seen` set. -/
def collect_runs_for_character (fetches : List (List Json)) : Except PyErr (List Json) :=
  collectGo fetches.flatten [] []

/-- `r2` bears the same truthy run id as `v` (Python `==`). -/
def sameId (v : Json) (r2 : Json) : Bool :=
  match truthyId r2 with
  | some w => pyEq v w
  | none => false

/-- Spec-side reformulation (for comparison with `collect_runs_for_character`):
the deduplication rule as worded - keep the first occurrence of each RunId in
discovery order, discard subsequent records bearing an already-seen RunId,
silently drop records with no extractable id. -/
def dedupSpec : List Json → List Json
  | [] => []
  | r :: rs =>
    match truthyId r with
    | none => dedupSpec rs
    | some v => r :: dedupSpec (rs.filter (fun r2 => !sameId v r2))
termination_by l => l.length
decreasing_by
  · simp only [List.length_cons]; omega
  · have := List.length_filter_le (fun r2 => !sameId v r2) rs
    simp only [List.length_cons]; omega

/-- `k in v` (Python `in`) for the string keys probed by the sources:
key membership for dicts, element membership for lists, substring test for
strings, `TypeError` otherwise. -/
def pyContainsKey (data : Json) (k : String) : Except PyErr Bool :=
  match data with
  | .obj kvs => .ok ((kvs.find? (fun kv => kv.1 == k)).isSome)
  | .arr xs => .ok (xs.any (fun j => pyEq j (.str k)))
  | .str s => .ok ((s.splitOn k).length != 1)
  | _ => .error .typeError

/-- `v[k]` with a string key: dict lookup (`KeyError` when absent),
`TypeError` on any other value. -/
def pySubscript (data : Json) (k : String) : Except PyErr Json :=
  match data with
  | .obj kvs =>
    match kvs.find? (fun kv => kv.1 == k) with
    | some kv => .ok kv.2
    | none => .error .keyError
  | _ => .error .typeError

/-- `v.get(k, dflt)`: only dicts have a `.get` method. -/
def pyDictGet (data : Json) (k : String) (dflt : Json) : Except PyErr Json :=
  match data with
  | .obj kvs => .ok (getFieldD kvs k dflt)
  | _ => .error .attributeError

/-- `member.get("character", member)`: unwrap the optional `character` key;
a non-dict member has no `.get` and raises. -/
def unwrapMemberE (m : Json) : Except PyErr Json :=
  match m with
  | .obj kvs => .ok (getFieldD kvs "character" m)
  | _ => .error .attributeError

/-- The `roster`-shape comprehension `[member.get("character", member) for
member in v]`. -/
def unwrapAll : List Json → Except PyErr (List Json)
  | [] => .ok []
  | m :: ms =>
    match unwrapMemberE m with
    | .error e => .error e
    | .ok c =>
      match unwrapAll ms with
      | .error e => .error e
      | .ok cs => .ok (c :: cs)

/-- Inner loop of the `logged_details` shape: `for member in enc.get("roster",
[])`, appending each truthy unwrapped character to the accumulator. -/
def collectRosterChars : List Json → List Json → Except PyErr (List Json)
  | [], acc => .ok acc
  | m :: ms, acc =>
    match unwrapMemberE m with
    | .error e => .error e
    | .ok c => collectRosterChars ms (if c.truthy then acc ++ [c] else acc)

/-- Outer loop of the `logged_details` shape: `for enc in logged.get(
"encounters", [])`. -/
def collectEncChars : List Json → List Json → Except PyErr (List Json)
  | [], acc => .ok acc
  | enc :: encs, acc =>
    match pyDictGet enc "roster" (.arr []) with
    | .error e => .error e
    | .ok rosV =>
      match pyIterElems rosV with
      | .error e => .error e
      | .ok ros =>
        match collectRosterChars ros acc with
        | .error e => .error e
        | .ok acc2 => collectEncChars encs acc2

/-- `src/api.py` lines 76-102 (identical in `src/main.py` lines 115-139):
`fetch_run_roster` applied to the decoded run-details payload (the HTTP
request itself is external).  The raw payload value is returned: the sources
return `data["participants"]` and `data.get("characters", [])` unchecked, so
the result is not forced to be a list. -/
def fetch_run_roster (data : Json) : Except PyErr Json :=
  match pyContainsKey data "roster" with
  | .error e => .error e
  | .ok true =>
    match pySubscript data "roster" with
    | .error e => .error e
    | .ok v =>
      match pyIterElems v with
      | .error e => .error e
      | .ok elems =>
        match unwrapAll elems with
        | .error e => .error e
        | .ok members => .ok (.arr members)
  | .ok false =>
    match pyContainsKey data "participants" with
    | .error e => .error e
    | .ok true => pySubscript data "participants"
    | .ok false =>
      match pyDictGet data "logged_details" .null with
      | .error e => .error e
      | .ok lg =>
        match pyDictGet (if lg.truthy then lg else .obj []) "encounters" (.arr []) with
        | .error e => .error e
        | .ok encsV =>
          match pyIterElems encsV with
          | .error e => .error e
          | .ok encs =>
            match collectEncChars encs [] with
            | .error e => .error e
            | .ok characters =>
              if characters.isEmpty then pyDictGet data "characters" (.arr [])
              else .ok (.arr characters)

/-- Key presence in a dict's field list. -/
def hasKey (kvs : List (String × Json)) (k : String) : Bool :=
  (kvs.find? (fun kv => kv.1 == k)).isSome

/-- Elements of a JSON list value (used under hypotheses making it a list). -/
def arrElems : Json → List Json
  | .arr xs => xs
  | _ => []

/-- Best-effort `member.get("character", member)` on a known dict. -/
def unwrapMember (m : Json) : Json :=
  match m with
  | .obj kvs => getFieldD kvs "character" m
  | _ => m

/-- One step of the `logged_details` traversal: append the unwrapped
character when it is truthy. -/
def loggedFoldEntry (acc : List Json) (m : Json) : List Json :=
  let c := unwrapMember m
  if c.truthy then acc ++ [c] else acc

/-- The `roster` value of one encounter, as a list. -/
def encRoster (enc : Json) : List Json :=
  arrElems (match enc with
    | .obj ekvs => getFieldD ekvs "roster" (.arr [])
    | _ => .arr [])

/-- The `encounters` value of `logged_details or {}`. -/
def encsVal (kvs : List (String × Json)) : Json :=
  match (if (getField kvs "logged_details").truthy then getField kvs "logged_details"
         else .obj []) with
  | .obj lkvs => getFieldD lkvs "encounters" (.arr [])
  | _ => .arr []

/-- Pure form of the `logged_details.encounters[*].roster[*]` traversal with
`character` unwrapping and falsy members dropped. -/
def loggedChars (kvs : List (String × Json)) : List Json :=
  (arrElems (encsVal kvs)).foldl (fun acc enc => (encRoster enc).foldl loggedFoldEntry acc) []

/-- Shape (1) as a selection rule: applicable when the `roster` key is
present; its result is the unwrapped member list. -/
def shapeRoster (kvs : List (String × Json)) : Option Json :=
  if hasKey kvs "roster" then some (.arr ((arrElems (getField kvs "roster")).map unwrapMember))
  else none

/-- Shape (2) as a selection rule: applicable when the `participants` key is
present; its result is that raw value. -/
def shapeParticipants (kvs : List (String × Json)) : Option Json :=
  if hasKey kvs "participants" then some (getField kvs "participants") else none

/-- Shape (3) as a selection rule: applicable when the `logged_details`
traversal yields at least one character. -/
def shapeLogged (kvs : List (String × Json)) : Option Json :=
  if (loggedChars kvs).isEmpty then none else some (.arr (loggedChars kvs))

/-- Shape (4), the fallback: the `characters` value, or an empty list. -/
def shapeCharacters (kvs : List (String × Json)) : Json :=
  getFieldD kvs "characters" (.arr [])

/-- The amended shape-selection rule: shapes (1) and (2) are selected by key
presence alone, shape (3) only when non-empty, shape (4) as final fallback. -/
def amendedRoster (kvs : List (String × Json)) : Json :=
  (((shapeRoster kvs).orElse (fun _ => shapeParticipants kvs)).orElse
    (fun _ => shapeLogged kvs)).getD (shapeCharacters kvs)

/-- Spec-side reformulation of the claimed rule as worded: try the four
shapes in priority order and return the first non-empty result, an empty
list when none applies. -/
def rosterFirstNonEmpty (kvs : List (String × Json)) : Json :=
  let c1 := if hasKey kvs "roster" then (arrElems (getField kvs "roster")).map unwrapMember else []
  let c2 := arrElems (getField kvs "participants")
  let c3 := loggedChars kvs
  let c4 := arrElems (getField kvs "characters")
  match [c1, c2, c3, c4].find? (fun l => !l.isEmpty) with
  | some l => .arr l
  | none => .arr []

/-- The value is a dict. -/
def isObj : Json → Bool
  | .obj _ => true
  | _ => false

/-- The value is a list of dicts. -/
def isArrOfObjs : Json → Bool
  | .arr xs => xs.all isObj
  | _ => false

/-- The encounter is a dict whose `roster` value is a list of dicts. -/
def encOk : Json → Bool
  | .obj ekvs => isArrOfObjs (getFieldD ekvs "roster" (.arr []))
  | _ => false

/-- Well-formedness of a run-details payload under which the shape selection
runs without an exception: a present `roster` value is a list of dicts; with
neither `roster` nor `participants`, a truthy `logged_details` is a dict,
its `encounters` value is a list of dicts, and each encounter's `roster`
value is a list of dicts. -/
def wfPayload (kvs : List (String × Json)) : Bool :=
  if hasKey kvs "roster" then isArrOfObjs (getField kvs "roster")
  else if hasKey kvs "participants" then true
  else
    (!(getField kvs "logged_details").truthy || isObj (getField kvs "logged_details")) &&
    (match encsVal kvs with
     | .arr encs => encs.all encOk
     | _ => false)

/-- `src/analytics.py` lines 37-40 (identical in `src/main.py` 221-223): the
realm value of a roster entry with fields `kvs` - `realm` with fallback to
`realm_slug` then `""`, then `slug`/`name`/`""` unwrapping when the value is
a dict. -/
def realmOf (kvs : List (String × Json)) : Json :=
  match pyOr (getField kvs "realm") (getFieldD kvs "realm_slug" (.str "")) with
  | .obj rkvs => pyOr (getField rkvs "slug") (pyOr (getField rkvs "name") (.str ""))
  | v => v

/-- `src/analytics.py` line 42: `full = f"{name}-{realm}" if realm else name`. -/
def fullOf (kvs : List (String × Json)) : Json :=
  if (realmOf kvs).truthy then
    .str (pyStr (getField kvs "name") ++ "-" ++ pyStr (realmOf kvs))
  else getField kvs "name"

/-- Spec-side reformulation (for comparison with `realmOf`): take `realm`,
falling back to `realm_slug`, falling back to empty; if the value is a nested
object take its `slug`, else its `name`, else empty. -/
def realmSpecOf (kvs : List (String × Json)) : Json :=
  let r :=
    if (getField kvs "realm").truthy then getField kvs "realm"
    else if (getField kvs "realm_slug").truthy then getField kvs "realm_slug"
    else .str ""
  match r with
  | .obj rkvs =>
    if (getField rkvs "slug").truthy then getField rkvs "slug"
    else if (getField rkvs "name").truthy then getField rkvs "name"
    else .str ""
  | v => v

/-- Spec-side reformulation (for comparison with `fullOf`): the full identity
is `"name-realm"` when the resulting realm is non-empty, just `name`
otherwise. -/
def fullSpecOf (kvs : List (String × Json)) : Json :=
  if (realmSpecOf kvs).truthy then
    .str (pyStr (getField kvs "name") ++ "-" ++ pyStr (realmSpecOf kvs))
  else getField kvs "name"

/-- The Counter key a processed roster entry contributes (for the entries the
sources actually count, `full` is a string and this is that string). -/
def keyOf (e : Json) : String :=
  match e with
  | .obj kvs => pyStr (fullOf kvs)
  | _ => ""

/-- The entry names the subject: `name.lower() == self_name.lower()` holds
(only possible when the `name` value is a string). -/
def isSelf (self_name : String) (e : Json) : Bool :=
  match e with
  | .obj kvs =>
    match getField kvs "name" with
    | .str s => pyLower s == pyLower self_name
    | _ => false
  | _ => false

/-- The entry can be processed without an exception: a dict whose `name`
value is a string, so that `name.lower()` succeeds. -/
def wfEntry (e : Json) : Bool :=
  match e with
  | .obj kvs =>
    match getField kvs "name" with
    | .str _ => true
    | _ => false
  | _ => false

/-- A dict entry whose `name` value is not a string (absent, `None`, or
another non-string) - the malformed-entry shape of the spec's tolerance
claim. -/
def badName (e : Json) : Bool :=
  match e with
  | .obj kvs =>
    match getField kvs "name" with
    | .str _ => false
    | _ => true
  | _ => false

/-- `src/analytics.py` lines 35-47 (identical in `src/main.py` 219-227), body
of `for character in roster`: normalize the identity, skip the subject
(case-insensitively), otherwise count the full identity.  A non-dict entry
has no `.get`, and a non-string name no `.lower()`: `AttributeError`, which
the sources do not catch. -/
def processEntry (self_name : String) (c : Multiset String) (e : Json) :
    Except PyErr (Multiset String) :=
  match e with
  | .obj kvs =>
    match getField kvs "name" with
    | .str s =>
      if pyLower s == pyLower self_name then .ok c
      else .ok (pyStr (fullOf kvs) ::ₘ c)
    | _ => .error .attributeError
  | _ => .error .attributeError

/-- The `for character in roster` loop over an entry list. -/
def processRoster (self_name : String) : List Json → Multiset String →
    Except PyErr (Multiset String)
  | [], c => .ok c
  | e :: es, c =>
    match processEntry self_name c e with
    | .ok c2 => processRoster self_name es c2
    | .error err => .error err

/-- `src/analytics.py` lines 22-49 (identical in `src/main.py` 208-228): the
per-run loop of `build_teammate_stats`.  `fetch` stands for
`client.fetch_run_roster`; only its exceptions are caught (the `try` wraps
the fetch alone), and a falsy extracted id skips the run. -/
def buildAux (self_name : String) (fetch : Json → Except String Json) :
    List Json → Multiset String → Except PyErr (Multiset String)
  | [], c => .ok c
  | run :: rest, c =>
    let run_id := extract_run_id run
    if run_id.truthy then
      match fetch run_id with
      | .error _ => buildAux self_name fetch rest c
      | .ok roster =>
        match pyIterElems roster with
        | .error err => .error err
        | .ok entries =>
          match processRoster self_name entries c with
          | .ok c2 => buildAux self_name fetch rest c2
          | .error err => .error err
    else buildAux self_name fetch rest c

/-- `build_teammate_stats(runs, client, self_name)`: the Counter is modelled
as a multiset of counted identity strings (`count` gives each frequency). -/
def build_teammate_stats (runs : List Json) (fetch : Json → Except String Json)
    (self_name : String) : Except PyErr (Multiset String) :=
  buildAux self_name fetch runs 0

/-- `fetch` with every roster entry naming the subject removed from
successful list results (other results are unchanged). -/
def filterFetch (self_name : String) (fetch : Json → Except String Json) :
    Json → Except String Json :=
  fun rid =>
    match fetch rid with
    | .ok (.arr xs) => .ok (.arr (xs.filter (fun e => !isSelf self_name e)))
    | r => r

/-- The run aggregates without an exception: its id is falsy (skipped), its
fetch fails (caught and skipped), or the fetched roster is a list of
processable entries. -/
def runOk (fetch : Json → Except String Json) (r : Json) : Bool :=
  let rid := extract_run_id r
  if rid.truthy then
    match fetch rid with
    | .error _ => true
    | .ok (.arr xs) => xs.all wfEntry
    | .ok _ => false
  else true

/-- Decidable equality of the aggregator's result type. -/
instance : DecidableEq (Except PyErr (Multiset String)) :=
  fun a b =>
    match a, b with
    | .error e, .error f =>
      if h : e = f then .isTrue (by rw [h])
      else .isFalse (fun hh => h (by cases hh; rfl))
    | .ok x, .ok y =>
      if h : x = y then .isTrue (by rw [h])
      else .isFalse (fun hh => h (by cases hh; rfl))
    | .error _, .ok _ => .isFalse (fun hh => Except.noConfusion hh)
    | .ok _, .error _ => .isFalse (fun hh => Except.noConfusion hh)

/-- A record whose extracted run id is a dict (truthy yet unhashable). -/
def runUnhashableId : Json := .obj [("id", .obj [("a", .num 1)])]

/-- Records with integer ids used to exercise the discovery loop. -/
def runId1 : Json := .obj [("id", .num 1)]

/-- A second record with a distinct id. -/
def runId2 : Json := .obj [("keystone_run_id", .num 2)]

/-- A later record bearing the already-seen id `1`. -/
def runId1Dup : Json := .obj [("id", .num 1), ("note", .str "later duplicate")]

/-- A record with no identifier fields at all. -/
def runNoId : Json := .obj [("foo", .num 3)]

/-- A record whose only identifier lives in `summary` and is `0`. -/
def runSummaryZero : Json := .obj [("summary", .obj [("id", .num 0)])]

/-- A record whose summary identifiers are `0` and the empty string. -/
def runSummaryEmpty : Json :=
  .obj [("summary", .obj [("keystone_run_id", .num 0), ("id", .str "")])]

/-- A record where a falsy `keystone_run_id` falls through to a truthy `id`. -/
def runFalsyKeystone : Json := .obj [("keystone_run_id", .num 0), ("id", .num 7)]

/-- A roster entry with no `name` field (its `name` is `None`). -/
def entryNoName : Json := .obj [("realm", .str "area-52")]

/-- The roster entries of the spec's end-to-end example. -/
def aliceEntry : Json := .obj [("name", .str "Alice"), ("realm", .str "area-52")]

/-- Second example entry: realm given as an object with a `slug`. -/
def bobEntry : Json := .obj [("name", .str "Bob"), ("realm", .obj [("slug", .str "stormrage")])]

/-- Third example entry: the subject again, in different casing and realm format. -/
def aliceEntryLower : Json := .obj [("name", .str "alice"), ("realm", .str "Area-52")]

/-- Fourth example entry: no realm at all. -/
def carolEntry : Json := .obj [("name", .str "Carol")]

/-- The example run records with RunIds 100 and 101. -/
def run100 : Json := .obj [("keystone_run_id", .num 100)]

/-- The second example run record. -/
def run101 : Json := .obj [("keystone_run_id", .num 101)]

/-- The end-to-end example's roster fetches. -/
def fetchC8 : Json → Except String Json := fun rid =>
  if pyEq rid (.num 100) then .ok (.arr [aliceEntry, bobEntry])
  else if pyEq rid (.num 101) then .ok (.arr [aliceEntryLower, carolEntry])
  else .error "run-details request failed"

/-- A fetch whose only roster contains a single entry with no usable name. -/
def fetchNoName : Json → Except String Json := fun rid =>
  if pyEq rid (.num 1) then .ok (.arr [entryNoName])
  else .error "run-details request failed"

/-- A fetch with a well-formed entry ahead of a name-less entry. -/
def fetchBobThenNoName : Json → Except String Json := fun rid =>
  if pyEq rid (.num 1) then .ok (.arr [bobEntry, entryNoName])
  else .error "run-details request failed"

/-- A fetch that raises on run 1 and yields a malformed roster for run 2. -/
def fetchFailThenNoName : Json → Except String Json := fun rid =>
  if pyEq rid (.num 1) then .error "boom"
  else if pyEq rid (.num 2) then .ok (.arr [entryNoName])
  else .error "run-details request failed"

/-- A fetch that raises on run 1 and yields a clean roster for run 2. -/
def fetchFailThenBob : Json → Except String Json := fun rid =>
  if pyEq rid (.num 1) then .error "boom"
  else if pyEq rid (.num 2) then .ok (.arr [bobEntry])
  else .error "run-details request failed"

/-- A fetch yielding the same teammate twice in one roster. -/
def fetchBobTwice : Json → Except String Json := fun rid =>
  if pyEq rid (.num 1) then .ok (.arr [bobEntry, bobEntry])
  else .error "run-details request failed"

/-- A fetch yielding the same teammate twice followed by a name-less entry. -/
def fetchBobTwiceThenNoName : Json → Except String Json := fun rid =>
  if pyEq rid (.num 1) then .ok (.arr [bobEntry, bobEntry, entryNoName])
  else .error "run-details request failed"

/-- The payload refuting the claimed first-non-empty shape selection: an
empty `roster` list next to a non-empty `participants` list. -/
def emptyRosterPayload : List (String × Json) :=
  [("roster", .arr []), ("participants", .arr [.obj [("name", .str "A")]])]

/-- A payload served by the `roster` shape, for the amended-rule witness. -/
def rosterShapePayload : List (String × Json) :=
  [("roster", .arr [.obj [("character", .obj [("name", .str "B")])], .obj [("name", .str "C")]])]

/-- The record's truthy id is already in the `seen` set. -/
def seenHit (seen : List Json) (r : Json) : Bool :=
  match truthyId r with
  | some v => seen.any (fun w => pyEq w v)
  | none => false

theorem getField_eq_getFieldD (kvs : List (String × Json)) (k : String) :
    getField kvs k = getFieldD kvs k .null := rfl

theorem firstTruthy_pair (a b : Json) :
    firstTruthy [a, b] =
      if a.truthy then some a else if b.truthy then some b else none := by
  by_cases ha : a.truthy <;> by_cases hb : b.truthy <;>
    simp [firstTruthy, List.find?, ha, hb]

/-- Wherever the spec's extraction rule finds a non-empty identifier, the
code returns exactly that identifier; where the rule finds none, the code
returns a falsy value (not necessarily `None`). -/
theorem extract_run_id_agrees (run : Json) :
    (∀ v, extract_run_id_spec run = some v → extract_run_id run = v) ∧
    (extract_run_id_spec run = none → (extract_run_id run).truthy = false) := by
  cases run with
  | obj kvs =>
    simp only [extract_run_id, extract_run_id_spec]
    rw [firstTruthy_pair]
    by_cases ha : (getField kvs "keystone_run_id").truthy
    · simp [pyOr, ha]
    · by_cases hb : (getField kvs "id").truthy
      · simp [pyOr, ha, hb]
      · simp only [pyOr, ha, hb, if_false, if_neg, Bool.false_eq_true, ite_false]
        cases hs : getField kvs "summary" with
        | obj skvs =>
          simp only [firstTruthy_pair]
          by_cases hsa : (getField skvs "keystone_run_id").truthy
          · simp [pyOr, hsa]
          · by_cases hsb : (getField skvs "id").truthy
            · simp [pyOr, hsa, hsb]
            · simp [pyOr, hsa, hsb]
        | null => simp [Json.truthy]
        | bool b => simp [Json.truthy]
        | num n => simp [Json.truthy]
        | str s => simp [Json.truthy]
        | arr xs => simp [Json.truthy]
  | null => simp [extract_run_id, extract_run_id_spec, Json.truthy]
  | bool b => simp [extract_run_id, extract_run_id_spec, Json.truthy]
  | num n => simp [extract_run_id, extract_run_id_spec, Json.truthy]
  | str s => simp [extract_run_id, extract_run_id_spec, Json.truthy]
  | arr xs => simp [extract_run_id, extract_run_id_spec, Json.truthy]

theorem seenHit_append (seen : List Json) (v : Json) (r2 : Json) :
    seenHit (seen ++ [v]) r2 = (seenHit seen r2 || sameId v r2) := by
  unfold seenHit sameId
  cases truthyId r2 with
  | none => simp
  | some w => simp [List.any_append]

/-- The discovery loop equals the spec-side dedup of the remaining records
not yet hit by the `seen` set, provided every truthy id is hashable. -/
theorem collectGo_eq (rs : List Json) : ∀ acc seen : List Json,
    rs.all idOk = true →
    collectGo rs acc seen = .ok (acc ++ dedupSpec (rs.filter (fun r => !seenHit seen r))) := by
  induction rs with
  | nil => intro acc seen _; simp [collectGo, dedupSpec]
  | cons r rest ih =>
    intro acc seen h
    rw [List.all_cons, Bool.and_eq_true] at h
    obtain ⟨hr, hrest⟩ := h
    by_cases ht : (extract_run_id r).truthy
    · have hid : truthyId r = some (extract_run_id r) := by simp [truthyId, ht]
      have hhash : pyHashable (extract_run_id r) = true := by
        unfold idOk at hr; rw [hid] at hr; exact hr
      by_cases hseen : seen.any (fun w => pyEq w (extract_run_id r))
      · have hsh : seenHit seen r = true := by unfold seenHit; rw [hid]; exact hseen
        rw [show collectGo (r :: rest) acc seen = collectGo rest acc seen from by
          simp [collectGo, ht, hhash, hseen]]
        rw [ih acc seen hrest]
        congr 2
        rw [List.filter_cons]
        simp [hsh]
      · have hsh : seenHit seen r = false := by
          unfold seenHit; rw [hid]; simpa using hseen
        rw [show collectGo (r :: rest) acc seen
            = collectGo rest (acc ++ [r]) (seen ++ [extract_run_id r]) from by
          simp [collectGo, ht, hhash, hseen]]
        rw [ih (acc ++ [r]) (seen ++ [extract_run_id r]) hrest]
        rw [List.append_assoc]
        congr 2
        rw [List.filter_cons]
        simp only [hsh, Bool.not_false, if_true]
        rw [show dedupSpec (r :: rest.filter (fun r2 => !seenHit seen r2))
            = r :: dedupSpec ((rest.filter (fun r2 => !seenHit seen r2)).filter
                (fun r2 => !sameId (extract_run_id r) r2)) from by
          rw [dedupSpec, hid]]
        rw [List.filter_filter]
        simp only [List.singleton_append, List.cons.injEq, true_and]
        congr 1
        apply List.filter_congr
        intro a _
        rw [seenHit_append]
        cases seenHit seen a <;> cases sameId (extract_run_id r) a <;> rfl
    · have hid : truthyId r = none := by simp [truthyId, ht]
      rw [show collectGo (r :: rest) acc seen = collectGo rest acc seen from by
        simp [collectGo, ht]]
      rw [ih acc seen hrest]
      congr 2
      rw [List.filter_cons]
      have hsh : seenHit seen r = false := by unfold seenHit; rw [hid]
      simp only [hsh, Bool.not_false, if_true]
      rw [dedupSpec, hid]

theorem seenHit_nil (r : Json) : seenHit [] r = false := by
  unfold seenHit; cases truthyId r <;> simp

/-- A processable entry is counted as `keyOf` unless it names the subject. -/
theorem processEntry_wf (self : String) (c : Multiset String) (e : Json)
    (h : wfEntry e = true) :
    processEntry self c e = .ok (if isSelf self e then c else keyOf e ::ₘ c) := by
  cases e with
  | obj kvs =>
    simp only [processEntry, isSelf, keyOf]
    cases hn : getField kvs "name" with
    | str s => by_cases hsel : pyLower s = pyLower self <;> simp [hsel]
    | null => simp [wfEntry, hn] at h
    | bool b => simp [wfEntry, hn] at h
    | num n => simp [wfEntry, hn] at h
    | arr xs => simp [wfEntry, hn] at h
    | obj okvs => simp [wfEntry, hn] at h
  | null => simp [wfEntry] at h
  | bool b => simp [wfEntry] at h
  | num n => simp [wfEntry] at h
  | str s => simp [wfEntry] at h
  | arr xs => simp [wfEntry] at h

/-- An entry naming the subject is skipped without effect. -/
theorem processEntry_self (self : String) (c : Multiset String) (e : Json)
    (h : isSelf self e = true) :
    processEntry self c e = .ok c := by
  cases e with
  | obj kvs =>
    simp only [isSelf] at h
    simp only [processEntry]
    cases hn : getField kvs "name" with
    | str s => rw [hn] at h; simp at h; simp [h]
    | null => rw [hn] at h; cases h
    | bool b => rw [hn] at h; cases h
    | num n => rw [hn] at h; cases h
    | arr xs => rw [hn] at h; cases h
    | obj okvs => rw [hn] at h; cases h
  | null => simp [isSelf] at h
  | bool b => simp [isSelf] at h
  | num n => simp [isSelf] at h
  | str s => simp [isSelf] at h
  | arr xs => simp [isSelf] at h

/-- Processing a roster of processable entries adds one key per non-subject
entry (order-insensitively, as a multiset sum). -/
theorem processRoster_wf (self : String) (xs : List Json) : ∀ c : Multiset String,
    xs.all wfEntry = true →
    processRoster self xs c
      = .ok (c + ((xs.filter (fun e => !isSelf self e)).map keyOf : List String)) := by
  induction xs with
  | nil => intro c _; simp [processRoster]
  | cons e es ih =>
    intro c h
    rw [List.all_cons, Bool.and_eq_true] at h
    obtain ⟨he, hes⟩ := h
    simp only [processRoster]
    rw [processEntry_wf self c e he]
    by_cases hsel : isSelf self e = true
    · rw [if_pos hsel]
      change processRoster self es c = _
      rw [ih c hes, List.filter_cons]
      simp [hsel]
    · rw [if_neg hsel]
      change processRoster self es (keyOf e ::ₘ c) = _
      rw [ih (keyOf e ::ₘ c) hes, List.filter_cons]
      rw [if_pos (by simp [hsel])]
      simp only [List.map_cons]
      congr 1
      rw [← Multiset.cons_coe, Multiset.add_cons, Multiset.cons_add]

/-- Removing the subject's entries from a roster does not change its
processing (normal or exceptional). -/
theorem processRoster_filter_self (self : String) (xs : List Json) : ∀ c : Multiset String,
    processRoster self (xs.filter (fun e => !isSelf self e)) c = processRoster self xs c := by
  induction xs with
  | nil => intro c; rfl
  | cons e es ih =>
    intro c
    rw [List.filter_cons]
    by_cases hsel : isSelf self e = true
    · rw [if_neg (by simp [hsel])]
      rw [ih c]
      have hpe : processEntry self c e = .ok c := processEntry_self self c e hsel
      simp only [processRoster, hpe]
    · rw [if_pos (by simp [hsel])]
      simp only [processRoster]
      cases hpe : processEntry self c e with
      | ok c2 => exact ih c2
      | error err => rfl

/-- Filtering the subject out of every fetched roster does not change the
aggregation. -/
theorem buildAux_filterFetch (self : String) (fetch : Json → Except String Json)
    (runs : List Json) : ∀ c : Multiset String,
    buildAux self (filterFetch self fetch) runs c = buildAux self fetch runs c := by
  induction runs with
  | nil => intro c; rfl
  | cons run rest ih =>
    intro c
    simp only [buildAux]
    by_cases ht : (extract_run_id run).truthy
    · rw [if_pos ht, if_pos ht]
      cases hf : fetch (extract_run_id run) with
      | error e =>
        rw [show filterFetch self fetch (extract_run_id run) = .error e from by
          simp [filterFetch, hf]]
        exact ih c
      | ok roster =>
        cases roster with
        | arr xs =>
          rw [show filterFetch self fetch (extract_run_id run)
              = .ok (.arr (xs.filter (fun e => !isSelf self e))) from by
            simp [filterFetch, hf]]
          simp only [pyIterElems]
          rw [processRoster_filter_self self xs c]
          cases hpr : processRoster self xs c with
          | ok c2 => exact ih c2
          | error err => rfl
        | null =>
          rw [show filterFetch self fetch (extract_run_id run) = .ok .null from by
            simp [filterFetch, hf]]
          rfl
        | bool b =>
          rw [show filterFetch self fetch (extract_run_id run) = .ok (.bool b) from by
            simp [filterFetch, hf]]
          rfl
        | num n =>
          rw [show filterFetch self fetch (extract_run_id run) = .ok (.num n) from by
            simp [filterFetch, hf]]
          rfl
        | str s =>
          rw [show filterFetch self fetch (extract_run_id run) = .ok (.str s) from by
            simp [filterFetch, hf]]
          simp only [pyIterElems]
          cases hpr : processRoster self (s.toList.map (fun ch => .str ch.toString)) c with
          | ok c2 => exact ih c2
          | error err => rfl
        | obj kvs =>
          rw [show filterFetch self fetch (extract_run_id run) = .ok (.obj kvs) from by
            simp [filterFetch, hf]]
          simp only [pyIterElems]
          cases hpr : processRoster self (kvs.map (fun kv => .str kv.1)) c with
          | ok c2 => exact ih c2
          | error err => rfl
    · rw [if_neg ht, if_neg ht]
      exact ih c

/-- A list of cleanly-aggregating runs produces a Counter (no exception). -/
theorem buildAux_ok_of_runOk (self : String) (fetch : Json → Except String Json)
    (runs : List Json) : ∀ c : Multiset String,
    runs.all (runOk fetch) = true → ∃ m, buildAux self fetch runs c = .ok m := by
  induction runs with
  | nil => intro c _; exact ⟨c, rfl⟩
  | cons run rest ih =>
    intro c h
    rw [List.all_cons, Bool.and_eq_true] at h
    obtain ⟨hr, hrest⟩ := h
    simp only [buildAux]
    by_cases ht : (extract_run_id run).truthy
    · rw [if_pos ht]
      simp only [runOk, ht, if_true] at hr
      cases hf : fetch (extract_run_id run) with
      | error e => exact ih c hrest
      | ok roster =>
        rw [hf] at hr
        cases roster with
        | arr xs =>
          simp only [pyIterElems]
          rw [processRoster_wf self xs c hr]
          exact ih _ hrest
        | null => cases hr
        | bool b => cases hr
        | num n => cases hr
        | str s => cases hr
        | obj kvs => cases hr
    · rw [if_neg ht]
      exact ih c hrest

/-- A run whose roster fetch raises is skipped: aggregation proceeds exactly
as if the run were absent. -/
theorem buildAux_skip_failed (self : String) (fetch : Json → Except String Json)
    (rk : Json) (err : String)
    (ht : (extract_run_id rk).truthy = true)
    (hf : fetch (extract_run_id rk) = .error err) :
    ∀ (pre suf : List Json) (c : Multiset String),
    buildAux self fetch (pre ++ rk :: suf) c = buildAux self fetch (pre ++ suf) c := by
  intro pre
  induction pre with
  | nil =>
    intro suf c
    simp only [List.nil_append, buildAux, ht, if_true, hf]
  | cons p ps ih =>
    intro suf c
    simp only [List.cons_append, buildAux]
    by_cases htp : (extract_run_id p).truthy
    · rw [if_pos htp, if_pos htp]
      cases hfp : fetch (extract_run_id p) with
      | error e => exact ih suf c
      | ok roster =>
        cases hit : pyIterElems roster with
        | error e => simp only [hit]
        | ok entries =>
          cases hpr : processRoster self entries c with
          | ok c2 => simp only [hit, hpr]; exact ih suf c2
          | error e => simp only [hit, hpr]
    · rw [if_neg htp, if_neg htp]
      exact ih suf c

/-- A name-less dict entry behind any prefix of processable entries raises
`AttributeError` out of the roster loop. -/
theorem processRoster_bad (self : String) (bad : Json) (hb : badName bad = true) :
    ∀ (pre suf : List Json) (c : Multiset String), pre.all wfEntry = true →
    processRoster self (pre ++ bad :: suf) c = .error .attributeError := by
  intro pre
  induction pre with
  | nil =>
    intro suf c _
    simp only [List.nil_append, processRoster]
    rw [show processEntry self c bad = .error .attributeError from by
      cases bad with
      | obj kvs =>
        simp only [processEntry]
        cases hn : getField kvs "name" with
        | str s => simp [badName, hn] at hb
        | null => rfl
        | bool b => rfl
        | num n => rfl
        | arr xs => rfl
        | obj okvs => rfl
      | null => simp [badName] at hb
      | bool b => simp [badName] at hb
      | num n => simp [badName] at hb
      | str s => simp [badName] at hb
      | arr xs => simp [badName] at hb]
  | cons p ps ih =>
    intro suf c h
    rw [List.all_cons, Bool.and_eq_true] at h
    obtain ⟨hp, hps⟩ := h
    simp only [List.cons_append, processRoster]
    rw [processEntry_wf self c p hp]
    by_cases hsel : isSelf self p = true
    · rw [if_pos hsel]
      exact ih suf c hps
    · rw [if_neg hsel]
      exact ih suf (keyOf p ::ₘ c) hps

/-- The code's realm value and the spec's worded realm rule agree up to
falsiness: they are equal, or both are empty-equivalent (falsy). -/
theorem realmOf_spec (kvs : List (String × Json)) :
    realmOf kvs = realmSpecOf kvs ∨
    ((realmOf kvs).truthy = false ∧ (realmSpecOf kvs).truthy = false) := by
  unfold realmOf realmSpecOf
  by_cases h1 : (getField kvs "realm").truthy
  · left
    rw [show pyOr (getField kvs "realm") (getFieldD kvs "realm_slug" (.str ""))
        = getField kvs "realm" from by simp [pyOr, h1]]
    rw [if_pos h1]
    cases getField kvs "realm" with
    | obj rkvs =>
      by_cases hs : (getField rkvs "slug").truthy
      · simp [pyOr, hs]
      · by_cases hname : (getField rkvs "name").truthy <;> simp [pyOr, hs, hname]
    | null => rfl
    | bool b => rfl
    | num n => rfl
    | str s => rfl
    | arr xs => rfl
  · rw [show pyOr (getField kvs "realm") (getFieldD kvs "realm_slug" (.str ""))
        = getFieldD kvs "realm_slug" (.str "") from by simp [pyOr, h1]]
    rw [if_neg h1]
    by_cases h2 : (getField kvs "realm_slug").truthy
    · left
      rw [if_pos h2]
      rw [show getFieldD kvs "realm_slug" (.str "") = getField kvs "realm_slug" from by
        unfold getField getFieldD at *
        cases hf : kvs.find? (fun kv => kv.1 == "realm_slug") with
        | some kv => rfl
        | none => rw [hf] at h2; simp [Json.truthy] at h2]
      cases getField kvs "realm_slug" with
      | obj rkvs =>
        by_cases hs : (getField rkvs "slug").truthy
        · simp [pyOr, hs]
        · by_cases hname : (getField rkvs "name").truthy <;> simp [pyOr, hs, hname]
      | null => rfl
      | bool b => rfl
      | num n => rfl
      | str s => rfl
      | arr xs => rfl
    · rw [if_neg h2]
      cases hf : kvs.find? (fun kv => kv.1 == "realm_slug") with
      | none =>
        left
        rw [show getFieldD kvs "realm_slug" (.str "") = .str "" from by
          unfold getFieldD; rw [hf]]
      | some kv =>
        rw [show getFieldD kvs "realm_slug" (.str "") = kv.2 from by
          unfold getFieldD; rw [hf]]
        rw [show getField kvs "realm_slug" = kv.2 from by
          unfold getField; rw [hf]] at h2
        cases hkv : kv.2 with
        | obj rkvs =>
          left
          rw [hkv] at h2
          have : rkvs = [] := by
            simp [Json.truthy, List.isEmpty_iff] at h2; exact h2
          subst this
          simp [getField, pyOr, List.find?, Json.truthy]
        | str s =>
          left
          rw [hkv] at h2
          have : s = "" := by simpa [Json.truthy] using h2
          subst this
          rfl
        | null => right; simp [Json.truthy]
        | bool b =>
          right
          rw [hkv] at h2
          simp [Json.truthy] at h2 ⊢
          exact h2
        | num n =>
          right
          rw [hkv] at h2
          simp [Json.truthy] at h2 ⊢
          exact h2
        | arr xs =>
          right
          rw [hkv] at h2
          simp [Json.truthy] at h2 ⊢
          exact h2

/-- The composed full identity of the code equals the spec's worded rule. -/
theorem fullOf_eq_fullSpecOf (kvs : List (String × Json)) :
    fullOf kvs = fullSpecOf kvs := by
  unfold fullOf fullSpecOf
  rcases realmOf_spec kvs with h | ⟨ha, hb⟩
  · rw [h]
  · rw [ha, hb]
    simp

/-- Key-present subscripting returns the first binding, like `.get`. -/
theorem pySubscript_of_hasKey (kvs : List (String × Json)) (k : String)
    (h : hasKey kvs k = true) :
    pySubscript (.obj kvs) k = .ok (getField kvs k) := by
  unfold hasKey at h
  simp only [pySubscript, getField]
  cases hf : kvs.find? (fun kv => kv.1 == k) with
  | some kv => rfl
  | none => rw [hf] at h; cases h

/-- The `roster`-shape comprehension on a list of dicts unwraps each member. -/
theorem unwrapAll_objs (ms : List Json) (h : ms.all isObj = true) :
    unwrapAll ms = .ok (ms.map unwrapMember) := by
  induction ms with
  | nil => rfl
  | cons m rest ih =>
    rw [List.all_cons, Bool.and_eq_true] at h
    obtain ⟨hm, hrest⟩ := h
    cases m with
    | obj kvs =>
      simp only [unwrapAll, unwrapMemberE, List.map_cons]
      rw [ih hrest]
      rfl
    | null => simp [isObj] at hm
    | bool b => simp [isObj] at hm
    | num n => simp [isObj] at hm
    | str s => simp [isObj] at hm
    | arr xs => simp [isObj] at hm

/-- The inner `logged_details` loop on a list of dicts is the pure fold. -/
theorem collectRosterChars_wf (ms : List Json) : ∀ acc : List Json,
    ms.all isObj = true →
    collectRosterChars ms acc = .ok (ms.foldl loggedFoldEntry acc) := by
  induction ms with
  | nil => intro acc _; rfl
  | cons m rest ih =>
    intro acc h
    rw [List.all_cons, Bool.and_eq_true] at h
    obtain ⟨hm, hrest⟩ := h
    cases m with
    | obj kvs =>
      simp only [collectRosterChars, unwrapMemberE, List.foldl_cons]
      rw [ih _ hrest]
      rfl
    | null => simp [isObj] at hm
    | bool b => simp [isObj] at hm
    | num n => simp [isObj] at hm
    | str s => simp [isObj] at hm
    | arr xs => simp [isObj] at hm

/-- The outer `logged_details` loop on well-formed encounters is the pure
nested fold of `loggedChars`. -/
theorem collectEncChars_wf (encs : List Json) : ∀ acc : List Json,
    encs.all encOk = true →
    collectEncChars encs acc
      = .ok (encs.foldl (fun a e => (encRoster e).foldl loggedFoldEntry a) acc) := by
  induction encs with
  | nil => intro acc _; rfl
  | cons enc rest ih =>
    intro acc h
    rw [List.all_cons, Bool.and_eq_true] at h
    obtain ⟨he, hrest⟩ := h
    cases enc with
    | obj ekvs =>
      simp only [collectEncChars, pyDictGet, List.foldl_cons]
      simp only [encOk] at he
      cases hros : getFieldD ekvs "roster" (.arr []) with
      | arr ros =>
        rw [hros] at he
        simp only [isArrOfObjs] at he
        simp only [hros, pyIterElems]
        rw [collectRosterChars_wf ros acc he]
        simp only []
        rw [ih _ hrest]
        simp [encRoster, hros, arrElems]
      | null => rw [hros] at he; simp [isArrOfObjs] at he
      | bool b => rw [hros] at he; simp [isArrOfObjs] at he
      | num n => rw [hros] at he; simp [isArrOfObjs] at he
      | str s => rw [hros] at he; simp [isArrOfObjs] at he
      | obj okvs => rw [hros] at he; simp [isArrOfObjs] at he
    | null => simp [encOk] at he
    | bool b => simp [encOk] at he
    | num n => simp [encOk] at he
    | str s => simp [encOk] at he
    | arr xs => simp [encOk] at he

/-- Shape selection on a well-formed payload follows the amended rule. -/
theorem fetch_run_roster_amended_eq (kvs : List (String × Json))
    (h : wfPayload kvs = true) :
    fetch_run_roster (.obj kvs) = .ok (amendedRoster kvs) := by
  simp only [fetch_run_roster]
  by_cases hr : hasKey kvs "roster" = true
  · rw [show pyContainsKey (.obj kvs) "roster" = .ok true from by
      simp only [pyContainsKey]; rw [show (kvs.find? (fun kv => kv.1 == "roster")).isSome
        = true from hr]]
    simp only []
    rw [pySubscript_of_hasKey kvs "roster" hr]
    rw [wfPayload, if_pos hr] at h
    cases harr : getField kvs "roster" with
    | arr xs =>
      rw [harr] at h
      simp only [isArrOfObjs] at h
      simp only [pyIterElems]
      rw [unwrapAll_objs xs h]
      simp [amendedRoster, shapeRoster, hr, harr, arrElems, Option.orElse]
    | null => rw [harr] at h; simp [isArrOfObjs] at h
    | bool b => rw [harr] at h; simp [isArrOfObjs] at h
    | num n => rw [harr] at h; simp [isArrOfObjs] at h
    | str s => rw [harr] at h; simp [isArrOfObjs] at h
    | obj okvs => rw [harr] at h; simp [isArrOfObjs] at h
  · have hr' : hasKey kvs "roster" = false := by simpa using hr
    rw [show pyContainsKey (.obj kvs) "roster" = .ok false from by
      simp only [pyContainsKey]; rw [show (kvs.find? (fun kv => kv.1 == "roster")).isSome
        = false from hr']]
    simp only []
    by_cases hp : hasKey kvs "participants" = true
    · rw [show pyContainsKey (.obj kvs) "participants" = .ok true from by
        simp only [pyContainsKey]; rw [show (kvs.find? (fun kv => kv.1 == "participants")).isSome
          = true from hp]]
      simp only []
      rw [pySubscript_of_hasKey kvs "participants" hp]
      simp [amendedRoster, shapeRoster, shapeParticipants, hr', hp, Option.orElse]
    · have hp' : hasKey kvs "participants" = false := by simpa using hp
      rw [show pyContainsKey (.obj kvs) "participants" = .ok false from by
        simp only [pyContainsKey]; rw [show (kvs.find? (fun kv => kv.1 == "participants")).isSome
          = false from hp']]
      simp only [pyDictGet]
      rw [wfPayload, if_neg hp, if_neg hr] at h
      rw [Bool.and_eq_true] at h
      obtain ⟨hlgobj, hencs⟩ := h
      rw [show getFieldD kvs "logged_details" Json.null = getField kvs "logged_details" from rfl]
      by_cases hlg : (getField kvs "logged_details").truthy = true
      · rw [if_pos hlg]
        rw [Bool.or_eq_true] at hlgobj
        rcases hlgobj with hfalse | hobj
        · rw [hlg] at hfalse; cases hfalse
        · cases hlgval : getField kvs "logged_details" with
          | obj lkvs =>
            simp only [pyDictGet]
            have hlg2 : (Json.obj lkvs).truthy = true := by rw [← hlgval]; exact hlg
            have hev : encsVal kvs = getFieldD lkvs "encounters" (.arr []) := by
              simp [encsVal, hlgval, hlg2]
            cases henc : getFieldD lkvs "encounters" (.arr []) with
            | arr encs =>
              rw [hev, henc] at hencs
              simp only [pyIterElems]
              rw [collectEncChars_wf encs [] hencs]
              have hlc : loggedChars kvs
                  = encs.foldl (fun a e => (encRoster e).foldl loggedFoldEntry a) [] := by
                simp [loggedChars, hev, henc, arrElems]
              cases hemp : (encs.foldl (fun a e => (encRoster e).foldl loggedFoldEntry a)
                  []).isEmpty with
              | true =>
                simp [pyDictGet, hemp, amendedRoster, shapeRoster, shapeParticipants,
                  shapeLogged, shapeCharacters, hr', hp', hlc, Option.orElse]
              | false =>
                simp [pyDictGet, hemp, amendedRoster, shapeRoster, shapeParticipants,
                  shapeLogged, shapeCharacters, hr', hp', hlc, Option.orElse]
            | null => rw [hev, henc] at hencs; cases hencs
            | bool b => rw [hev, henc] at hencs; cases hencs
            | num n => rw [hev, henc] at hencs; cases hencs
            | str s => rw [hev, henc] at hencs; cases hencs
            | obj okvs => rw [hev, henc] at hencs; cases hencs
          | null => rw [hlgval] at hobj; cases hobj
          | bool b => rw [hlgval] at hobj; cases hobj
          | num n => rw [hlgval] at hobj; cases hobj
          | str s => rw [hlgval] at hobj; cases hobj
          | arr xs => rw [hlgval] at hobj; cases hobj
      · rw [if_neg hlg]
        have hev : encsVal kvs = .arr [] := by
          simp [encsVal, hlg, getFieldD, List.find?]
        have hlc : loggedChars kvs = [] := by simp [loggedChars, hev, arrElems]
        simp [pyDictGet, pyIterElems, collectEncChars, getFieldD, List.find?,
          amendedRoster, shapeRoster, shapeParticipants, shapeLogged,
          shapeCharacters, hr', hp', hlc, Option.orElse]

/-- Every record kept by the discovery loop has a truthy extracted id. -/
theorem collectGo_all_truthy (rs : List Json) : ∀ acc seen res : List Json,
    collectGo rs acc seen = .ok res →
    acc.all (fun r => (extract_run_id r).truthy) = true →
    res.all (fun r => (extract_run_id r).truthy) = true := by
  induction rs with
  | nil =>
    intro acc seen res h hacc
    simp only [collectGo] at h
    cases h
    exact hacc
  | cons r rest ih =>
    intro acc seen res h hacc
    by_cases ht : (extract_run_id r).truthy
    · by_cases hh : pyHashable (extract_run_id r) = true
      · by_cases hs : seen.any (fun v => pyEq v (extract_run_id r)) = true
        · rw [show collectGo (r :: rest) acc seen = collectGo rest acc seen from by
            simp [collectGo, ht, hh, hs]] at h
          exact ih acc seen res h hacc
        · rw [show collectGo (r :: rest) acc seen
              = collectGo rest (acc ++ [r]) (seen ++ [extract_run_id r]) from by
            simp [collectGo, ht, hh, hs]] at h
          exact ih (acc ++ [r]) (seen ++ [extract_run_id r]) res h
            (by simp [List.all_append, hacc, ht])
      · rw [show collectGo (r :: rest) acc seen = .error .typeError from by
          simp [collectGo, ht, hh]] at h
        cases h
    · rw [show collectGo (r :: rest) acc seen = collectGo rest acc seen from by
        simp [collectGo, ht]] at h
      exact ih acc seen res h hacc

/-- C1 counterexample: a record whose extracted RunId is a dict is truthy yet
unhashable, so the discovery loop raises `TypeError` instead of returning the
deduplicated run list the claim promises. -/
theorem C1_collect_counterexample :
    collect_runs_for_character [[runUnhashableId]] = .error .typeError ∧
    collect_runs_for_character [[runUnhashableId]] ≠ .ok [runUnhashableId] :=
  ⟨rfl, fun h => Except.noConfusion h⟩

/-- C1 (amended): when every record's truthy extracted RunId is hashable,
`collect_runs_for_character` returns exactly the spec's deduplication of the
concatenated fetch results - first occurrence of each RunId kept in discovery
order, later duplicates discarded, records with no truthy id silently
dropped; a record with an unhashable truthy id instead raises `TypeError`. -/
theorem C1_collect_dedup_first_occurrence (fetches : List (List Json))
    (h : fetches.flatten.all idOk = true) :
    collect_runs_for_character fetches = .ok (dedupSpec fetches.flatten) := by
  unfold collect_runs_for_character
  rw [collectGo_eq fetches.flatten [] [] h]
  rw [show fetches.flatten.filter (fun r => !seenHit [] r) = fetches.flatten from by
    apply List.filter_eq_self.mpr
    intro a _
    simp [seenHit_nil]]
  simp

/-- C1 witness: two dungeons' results with a duplicate id, an id-less record,
and two distinct ids. -/
theorem C1_collect_dedup_first_occurrence_witness :
    ([[runId1, runNoId], [runId1Dup, runId2]] : List (List Json)).flatten.all idOk = true ∧
    collect_runs_for_character [[runId1, runNoId], [runId1Dup, runId2]]
      = .ok (dedupSpec ([[runId1, runNoId], [runId1Dup, runId2]] : List (List Json)).flatten) :=
  ⟨by decide, C1_collect_dedup_first_occurrence [[runId1, runNoId], [runId1Dup, runId2]]
    (by decide)⟩

/-- C2 counterexample: with `summary` present and its only identifier fields
empty (`keystone_run_id` 0, `id` the empty string), the spec rule yields no
identifier, but `extract_run_id` returns the empty string instead of None. -/
theorem C2_extract_counterexample :
    extract_run_id runSummaryEmpty = .str "" ∧
    extract_run_id_spec runSummaryEmpty = none ∧
    extract_run_id runSummaryEmpty ≠ .null :=
  ⟨rfl, rfl, fun h => Json.noConfusion h⟩

/-- C2 (amended): `extract_run_id` returns the first non-empty identifier in
the documented priority order whenever one exists; when none exists it
returns a falsy value - `None` or, from the summary branch, the raw empty
value of the summary's `id` field - rather than necessarily `None`. -/
theorem C2_extract_priority_amended (run : Json) :
    (∀ v, extract_run_id_spec run = some v → extract_run_id run = v) ∧
    (extract_run_id_spec run = none → (extract_run_id run).truthy = false) :=
  extract_run_id_agrees run

/-- C2 witness: a falsy `keystone_run_id` falls through to a truthy `id`;
a record with no identifier fields extracts a falsy value. -/
theorem C2_extract_priority_amended_witness :
    extract_run_id_spec runFalsyKeystone = some (.num 7) ∧
    extract_run_id runFalsyKeystone = .num 7 ∧
    extract_run_id_spec runNoId = none ∧
    (extract_run_id runNoId).truthy = false :=
  ⟨rfl, (C2_extract_priority_amended runFalsyKeystone).1 (.num 7) rfl, rfl,
    (C2_extract_priority_amended runNoId).2 rfl⟩

/-- C3: self-exclusion - removing every roster entry whose name matches the
subject case-insensitively (any casing, any realm value) from every fetched
roster leaves `build_teammate_stats` unchanged, so such entries are never
inserted and contribute no count. -/
theorem C3_self_exclusion (runs : List Json) (fetch : Json → Except String Json)
    (self_name : String) :
    build_teammate_stats runs fetch self_name
      = build_teammate_stats runs (filterFetch self_name fetch) self_name := by
  unfold build_teammate_stats
  exact (buildAux_filterFetch self_name fetch runs 0).symm

/-- C4: identity normalization - for every roster entry, the code's composed
full identity (`fullOf`, used by the aggregator) equals the spec's worded
rule (`fullSpecOf`) in all realm shapes: plain string, object with `slug`,
object with only `name`, absent value, and the `realm_slug` fallback. -/
theorem C4_identity_normalization (kvs : List (String × Json)) :
    fullOf kvs = fullSpecOf kvs :=
  fullOf_eq_fullSpecOf kvs

/-- C5 counterexample: a roster whose only entry lacks a `name` makes
`build_teammate_stats` raise `AttributeError` (`None.lower()`) instead of
silently dropping the entry and returning the empty Counter. -/
theorem C5_nameless_entry_counterexample :
    build_teammate_stats [runId1] fetchNoName "Alice" = .error .attributeError ∧
    build_teammate_stats [runId1] fetchNoName "Alice" ≠ .ok 0 :=
  ⟨rfl, fun h => Except.noConfusion h⟩

/-- C5 (amended): a roster entry that is a dict without a string `name` is
not dropped - after any prefix of processable entries, it raises
`AttributeError` at `name.lower()`, and the error propagates out of
`build_teammate_stats`, aborting the aggregation. -/
theorem C5_nameless_entry_raises (self_name : String)
    (fetch : Json → Except String Json) (run : Json) (rest : List Json)
    (pre suf : List Json) (bad : Json)
    (ht : (extract_run_id run).truthy = true)
    (hf : fetch (extract_run_id run) = .ok (.arr (pre ++ bad :: suf)))
    (hpre : pre.all wfEntry = true) (hbad : badName bad = true) :
    build_teammate_stats (run :: rest) fetch self_name = .error .attributeError := by
  unfold build_teammate_stats
  simp only [buildAux, ht, if_true, hf, pyIterElems]
  rw [processRoster_bad self_name bad hbad pre suf 0 hpre]

/-- C5 witness: a processable teammate entry followed by a name-less entry. -/
theorem C5_nameless_entry_raises_witness :
    (extract_run_id runId1).truthy = true ∧
    fetchBobThenNoName (extract_run_id runId1) = .ok (.arr ([bobEntry] ++ entryNoName :: [])) ∧
    ([bobEntry] : List Json).all wfEntry = true ∧
    badName entryNoName = true ∧
    build_teammate_stats [runId1] fetchBobThenNoName "Alice" = .error .attributeError :=
  ⟨rfl, rfl, rfl, rfl,
    C5_nameless_entry_raises "Alice" fetchBobThenNoName runId1 [] [bobEntry] [] entryNoName
      rfl rfl rfl rfl⟩

/-- C6 counterexample: the fetch raises for run 1 and succeeds for run 2, yet
`build_teammate_stats` raises `AttributeError` (run 2's roster has a
name-less entry) instead of returning the N-1-run mapping the claim
promises. -/
theorem C6_partial_failure_counterexample :
    build_teammate_stats [runId1, runId2] fetchFailThenNoName "Alice"
      = .error .attributeError ∧
    build_teammate_stats [runId1, runId2] fetchFailThenNoName "Alice" ≠ .ok 0 :=
  ⟨rfl, fun h => Except.noConfusion h⟩

/-- C6 (amended): a run whose roster fetch raises is skipped - the result
(normal or exceptional) is exactly that of the run list without it; and when
every remaining run aggregates cleanly (fetch failure, falsy id, or a list
roster of dict entries with string names), the result is a Counter reflecting
exactly the other runs, with no error past the aggregation boundary. -/
theorem C6_partial_failure_tolerance (self_name : String)
    (fetch : Json → Except String Json) (rk : Json) (err : String)
    (pre suf : List Json)
    (ht : (extract_run_id rk).truthy = true)
    (hf : fetch (extract_run_id rk) = .error err) :
    build_teammate_stats (pre ++ rk :: suf) fetch self_name
      = build_teammate_stats (pre ++ suf) fetch self_name ∧
    ((pre ++ suf).all (runOk fetch) = true →
      ∃ m, build_teammate_stats (pre ++ suf) fetch self_name = .ok m) := by
  constructor
  · unfold build_teammate_stats
    exact buildAux_skip_failed self_name fetch rk err ht hf pre suf 0
  · intro hok
    unfold build_teammate_stats
    exact buildAux_ok_of_runOk self_name fetch (pre ++ suf) 0 hok

/-- C6 witness: run 1's fetch raises, run 2's roster is clean. -/
theorem C6_partial_failure_tolerance_witness :
    (extract_run_id runId1).truthy = true ∧
    fetchFailThenBob (extract_run_id runId1) = .error "boom" ∧
    build_teammate_stats ([] ++ runId1 :: [runId2]) fetchFailThenBob "Alice"
      = build_teammate_stats ([] ++ [runId2]) fetchFailThenBob "Alice" ∧
    (([] ++ [runId2] : List Json).all (runOk fetchFailThenBob) = true) ∧
    (∃ m, build_teammate_stats ([] ++ [runId2]) fetchFailThenBob "Alice" = .ok m) :=
  ⟨rfl, rfl,
    (C6_partial_failure_tolerance "Alice" fetchFailThenBob runId1 "boom" [] [runId2]
      rfl rfl).1,
    by decide,
    (C6_partial_failure_tolerance "Alice" fetchFailThenBob runId1 "boom" [] [runId2]
      rfl rfl).2 (by decide)⟩

/-- C7 counterexample: an empty `roster` list next to a non-empty
`participants` list - the claimed first-non-empty rule selects the
participants, but `fetch_run_roster` returns the empty list. -/
theorem C7_shape_selection_counterexample :
    fetch_run_roster (.obj emptyRosterPayload) = .ok (.arr []) ∧
    rosterFirstNonEmpty emptyRosterPayload = .arr [.obj [("name", .str "A")]] ∧
    fetch_run_roster (.obj emptyRosterPayload)
      ≠ .ok (rosterFirstNonEmpty emptyRosterPayload) :=
  ⟨rfl, rfl, fun h => by
    rw [show fetch_run_roster (.obj emptyRosterPayload) = .ok (.arr []) from rfl,
      show rosterFirstNonEmpty emptyRosterPayload = .arr [.obj [("name", .str "A")]] from
        rfl] at h
    cases h⟩

/-- C7 (amended): on well-formed payloads, shapes (1) `roster` and (2)
`participants` are selected by key presence alone (an empty or raw value is
returned as-is without falling through), shape (3) `logged_details` traversal
only when it yields a non-empty character list, and shape (4) `characters`
as final fallback - `fetch_run_roster` equals this amended ordered rule. -/
theorem C7_shape_selection_amended (kvs : List (String × Json))
    (h : wfPayload kvs = true) :
    fetch_run_roster (.obj kvs) = .ok (amendedRoster kvs) :=
  fetch_run_roster_amended_eq kvs h

/-- C7 witness: a payload served by the `roster` shape with `character`
unwrapping. -/
theorem C7_shape_selection_amended_witness :
    wfPayload rosterShapePayload = true ∧
    fetch_run_roster (.obj rosterShapePayload) = .ok (amendedRoster rosterShapePayload) :=
  ⟨rfl, C7_shape_selection_amended rosterShapePayload rfl⟩

/-- C8: the spec's end-to-end example - two runs with ids 100 and 101, the
subject `"Alice"` excluded in both casings and realm formats, yields exactly
the Counter with `Bob-stormrage` and `Carol` at one occurrence each. -/
theorem C8_end_to_end_example :
    build_teammate_stats [run100, run101] fetchC8 "Alice"
      = .ok {"Bob-stormrage", "Carol"} := by
  decide

/-- C9 counterexample: a roster holding the same teammate twice and then a
name-less entry - the claim promises a count of 2 for that identity, but the
aggregation aborts with `AttributeError` and produces no mapping. -/
theorem C9_per_entry_counterexample :
    build_teammate_stats [runId1] fetchBobTwiceThenNoName "Alice"
      = .error .attributeError ∧
    build_teammate_stats [runId1] fetchBobTwiceThenNoName "Alice"
      ≠ .ok {"Bob-stormrage", "Bob-stormrage"} :=
  ⟨rfl, fun h => Except.noConfusion h⟩

/-- C9 (amended): for a run whose fetched roster is a list of dict entries
with string names, aggregation adds one Counter occurrence per non-subject
entry - the multiset of their keys - so an identity appearing k times in one
roster gains exactly k counts; the count of any identity F in the added
multiset is the number of non-subject entries normalizing to F. -/
theorem C9_per_entry_counting (self_name : String)
    (fetch : Json → Except String Json) (run : Json) (rest : List Json)
    (xs : List Json) (c : Multiset String) (F : String)
    (ht : (extract_run_id run).truthy = true)
    (hf : fetch (extract_run_id run) = .ok (.arr xs))
    (hwf : xs.all wfEntry = true) :
    buildAux self_name fetch (run :: rest) c
      = buildAux self_name fetch rest
          (c + ((xs.filter (fun e => !isSelf self_name e)).map keyOf : List String)) ∧
    Multiset.count F
        (((xs.filter (fun e => !isSelf self_name e)).map keyOf : List String) : Multiset String)
      = ((xs.filter (fun e => !isSelf self_name e)).filter
          (fun e => keyOf e == F)).length := by
  constructor
  · simp only [buildAux, ht, if_true, hf, pyIterElems]
    rw [processRoster_wf self_name xs c hwf]
  · rw [Multiset.coe_count]
    rw [List.count_eq_countP]
    rw [List.countP_map]
    rw [List.countP_eq_length_filter]
    rfl

/-- C9 witness: the same teammate twice in one roster adds two counts. -/
theorem C9_per_entry_counting_witness :
    (extract_run_id runId1).truthy = true ∧
    fetchBobTwice (extract_run_id runId1) = .ok (.arr [bobEntry, bobEntry]) ∧
    ([bobEntry, bobEntry] : List Json).all wfEntry = true ∧
    buildAux "Alice" fetchBobTwice [runId1] 0
      = buildAux "Alice" fetchBobTwice []
          (0 + ((([bobEntry, bobEntry] : List Json).filter
            (fun e => !isSelf "Alice" e)).map keyOf : List String)) ∧
    Multiset.count "Bob-stormrage"
        (((([bobEntry, bobEntry] : List Json).filter
          (fun e => !isSelf "Alice" e)).map keyOf : List String) : Multiset String) = 2 :=
  ⟨rfl, rfl, rfl,
    (C9_per_entry_counting "Alice" fetchBobTwice runId1 [] [bobEntry, bobEntry] 0
      "Bob-stormrage" rfl rfl rfl).1,
    by decide⟩

/-- C10 counterexample: `extract_run_id` does return 0 - when the only
identifier is a zero `id` inside `summary`. -/
theorem C10_returns_zero_counterexample :
    extract_run_id runSummaryZero = .num 0 ∧ extract_run_id runSummaryZero ≠ .null :=
  ⟨rfl, fun h => Json.noConfusion h⟩

/-- C10 (amended): top-level falsy identifiers fall through, and
`extract_run_id` can return a falsy 0/empty value from the summary fields;
nevertheless a record with no non-empty identifier always extracts a falsy
value, discovery keeps only records with truthy extracted ids, and
aggregation skips a run with a falsy extracted id entirely. -/
theorem C10_falsy_identifier_amended :
    (∀ run : Json, extract_run_id_spec run = none → (extract_run_id run).truthy = false) ∧
    (∀ (fetches : List (List Json)) (res : List Json),
      collect_runs_for_character fetches = .ok res →
      res.all (fun r => (extract_run_id r).truthy) = true) ∧
    (∀ (self_name : String) (fetch : Json → Except String Json) (run : Json)
      (rest : List Json) (c : Multiset String),
      (extract_run_id run).truthy = false →
      buildAux self_name fetch (run :: rest) c = buildAux self_name fetch rest c) := by
  refine ⟨fun run h => (extract_run_id_agrees run).2 h, ?_, ?_⟩
  · intro fetches res h
    exact collectGo_all_truthy fetches.flatten [] [] res h rfl
  · intro self_name fetch run rest c h
    simp [buildAux, h]

/-- C10 witness: the summary-zero record extracts a falsy value, is dropped
by discovery, and its run is skipped by aggregation. -/
theorem C10_falsy_identifier_amended_witness :
    extract_run_id_spec runSummaryZero = none ∧
    (extract_run_id runSummaryZero).truthy = false ∧
    collect_runs_for_character [[runSummaryZero, runId1]] = .ok [runId1] ∧
    ([runId1] : List Json).all (fun r => (extract_run_id r).truthy) = true ∧
    buildAux "Alice" fetchC8 [runSummaryZero] 0 = buildAux "Alice" fetchC8 [] 0 :=
  ⟨rfl, C10_falsy_identifier_amended.1 runSummaryZero rfl, rfl,
    C10_falsy_identifier_amended.2.1 [[runSummaryZero, runId1]] [runId1] rfl,
    C10_falsy_identifier_amended.2.2 "Alice" fetchC8 runSummaryZero [] 0 rfl⟩
